import Mathlib

/-!
Shallow embedding of `src/teensy.c` (teensycore boot stage for the i.MX RT1060).

Memory model: the program manipulates 32-bit words through `uint32_t`
pointers, always word-aligned.  We model memory as a total map from word
index to stored value, where word index `a` stands for byte address `4*a`;
pointer increment (`dest++` on a `uint32_t *`) is `+ 1` on word indices, and
a memory-mapped register at byte address `r` lives at word index `r / 4`.
Stored values that are addresses are likewise measured in word indices.
-/

/-- Word-addressed memory: `m a` is the 32-bit word at word index `a`
(byte address `4*a`). -/
abbrev Mem := Nat → Nat

/-- Store value `v` at word index `a` (the effect of `*p = v`). -/
def wstore (m : Mem) (a v : Nat) : Mem :=
  fun x => if x = a then v else m x

/-- Word index of a byte address (valid for the word-aligned addresses the
program uses). -/
def wordIndex (byteAddr : Nat) : Nat := byteAddr / 4

/-- The loop of `memory_copy`: `while (dest < dest_end) { *dest++ = *src++; }`.
`fuel` bounds the number of iterations; `memory_copy` supplies
`dest_end - dest`, which is exactly the number of iterations the guard
`dest < dest_end` permits, so the guard and the fuel run out together. -/
def copyLoop : Nat → Mem → Nat → Nat → Nat → Mem
  | 0, m, _, _, _ => m
  | fuel + 1, m, dest, src, dest_end =>
    if dest < dest_end then
      copyLoop fuel (wstore m dest (m src)) (dest + 1) (src + 1) dest_end
    else m

/-- `memory_copy(dest, src, dest_end)` from `src/teensy.c`:
`if (dest == src) return;` then the word-by-word copy loop. -/
def memory_copy (m : Mem) (dest src dest_end : Nat) : Mem :=
  if dest = src then m
  else copyLoop (dest_end - dest) m dest src dest_end

/-- The loop of `memory_clear`: `while (dest < dest_end) { *dest++ = 0; }`. -/
def clearLoop : Nat → Mem → Nat → Nat → Mem
  | 0, m, _, _ => m
  | fuel + 1, m, dest, dest_end =>
    if dest < dest_end then
      clearLoop fuel (wstore m dest 0) (dest + 1) dest_end
    else m

/-- `memory_clear(dest, dest_end)` from `src/teensy.c`. -/
def memory_clear (m : Mem) (dest dest_end : Nat) : Mem :=
  clearLoop (dest_end - dest) m dest dest_end

theorem wstore_same (m : Mem) (a v : Nat) : wstore m a v a = v := by
  simp [wstore]

theorem wstore_other (m : Mem) (a v b : Nat) (h : b ≠ a) :
    wstore m a v b = m b := by
  simp [wstore, h]

/-- Frame property of the copy loop: no word below `dest` or at/after
`dest_end` is written. -/
theorem copyLoop_frame (fuel : Nat) :
    ∀ (m : Mem) (dest src dest_end a : Nat),
      a < dest ∨ dest_end ≤ a →
      copyLoop fuel m dest src dest_end a = m a := by
  induction fuel with
  | zero => intro m dest src dest_end a _; rfl
  | succ fuel ih =>
    intro m dest src dest_end a ha
    show copyLoop (fuel + 1) m dest src dest_end a = m a
    rw [copyLoop]
    by_cases h : dest < dest_end
    · rw [if_pos h, ih _ _ _ _ _ (by omega)]
      exact wstore_other _ _ _ _ (by omega)
    · rw [if_neg h]

/-- Frame property of the clear loop. -/
theorem clearLoop_frame (fuel : Nat) :
    ∀ (m : Mem) (dest dest_end a : Nat),
      a < dest ∨ dest_end ≤ a →
      clearLoop fuel m dest dest_end a = m a := by
  induction fuel with
  | zero => intro m dest dest_end a _; rfl
  | succ fuel ih =>
    intro m dest dest_end a ha
    show clearLoop (fuel + 1) m dest dest_end a = m a
    rw [clearLoop]
    by_cases h : dest < dest_end
    · rw [if_pos h, ih _ _ _ _ (by omega)]
      exact wstore_other _ _ _ _ (by omega)
    · rw [if_neg h]

/-- Correctness of the copy loop under a no-read-after-write condition: the
word read at iteration `j` (index `src + j`) must differ from every index
written at an earlier iteration (`dest + k`, `k < j`).  Then every copied
word receives the value the source held on entry. -/
theorem copyLoop_get (fuel : Nat) :
    ∀ (m : Mem) (dest src dest_end : Nat),
      dest_end ≤ dest + fuel →
      (∀ j k, k < j → j < dest_end - dest → src + j ≠ dest + k) →
      ∀ i, dest + i < dest_end →
        copyLoop fuel m dest src dest_end (dest + i) = m (src + i) := by
  induction fuel with
  | zero => intro m dest src dest_end hfuel _ i hi; omega
  | succ fuel ih =>
    intro m dest src dest_end hfuel hnra i hi
    have hlt : dest < dest_end := by omega
    show copyLoop (fuel + 1) m dest src dest_end (dest + i) = m (src + i)
    rw [copyLoop, if_pos hlt]
    cases i with
    | zero =>
      rw [copyLoop_frame fuel _ _ _ _ _ (by omega)]
      exact wstore_same _ _ _
    | succ j =>
      have harg : dest + (j + 1) = (dest + 1) + j := by omega
      rw [harg, ih _ _ _ _ (by omega) ?_ j (by omega)]
      · have hsj : (src + 1) + j = src + (j + 1) := by omega
        rw [hsj]
        exact wstore_other _ _ _ _ (hnra (j + 1) 0 (by omega) (by omega))
      · intro j' k' hk' hj'
        have := hnra (j' + 1) (k' + 1) (by omega) (by omega)
        omega

/-- Correctness of the clear loop: every word in `[dest, dest_end)` is zero
afterwards. -/
theorem clearLoop_get (fuel : Nat) :
    ∀ (m : Mem) (dest dest_end : Nat),
      dest_end ≤ dest + fuel →
      ∀ i, dest + i < dest_end →
        clearLoop fuel m dest dest_end (dest + i) = 0 := by
  induction fuel with
  | zero => intro m dest dest_end hfuel i hi; omega
  | succ fuel ih =>
    intro m dest dest_end hfuel i hi
    have hlt : dest < dest_end := by omega
    show clearLoop (fuel + 1) m dest dest_end (dest + i) = 0
    rw [clearLoop, if_pos hlt]
    cases i with
    | zero =>
      rw [clearLoop_frame fuel _ _ _ _ (by omega)]
      exact wstore_same _ _ _
    | succ j =>
      have harg : dest + (j + 1) = (dest + 1) + j := by omega
      rw [harg]
      exact ih _ _ _ (by omega) j (by omega)

/-- `memory_copy` frame: words outside `[dest, dest_end)` are unchanged. -/
theorem memory_copy_frame (m : Mem) (dest src dest_end a : Nat)
    (ha : a < dest ∨ dest_end ≤ a) :
    memory_copy m dest src dest_end a = m a := by
  unfold memory_copy
  by_cases h : dest = src
  · rw [if_pos h]
  · rw [if_neg h]
    exact copyLoop_frame _ _ _ _ _ _ ha

/-- `memory_clear` frame: words outside `[dest, dest_end)` are unchanged. -/
theorem memory_clear_frame (m : Mem) (dest dest_end a : Nat)
    (ha : a < dest ∨ dest_end ≤ a) :
    memory_clear m dest dest_end a = m a :=
  clearLoop_frame _ _ _ _ _ ha

/-- `memory_copy` correctness when the destination does not start strictly
inside the source run (forward copy is then safe, overlapping or not). -/
theorem memory_copy_get (m : Mem) (dest src dest_end : Nat)
    (hord : dest ≤ src ∨ src + (dest_end - dest) ≤ dest) :
    ∀ i, dest + i < dest_end →
      memory_copy m dest src dest_end (dest + i) = m (src + i) := by
  intro i hi
  unfold memory_copy
  by_cases h : dest = src
  · rw [if_pos h, h]
  · rw [if_neg h]
    exact copyLoop_get _ _ _ _ _ (by omega) (by intro j k hk hj; omega) i hi

/-- `memory_clear` correctness: every word in `[dest, dest_end)` is zero. -/
theorem memory_clear_get (m : Mem) (dest dest_end : Nat) :
    ∀ i, dest + i < dest_end →
      memory_clear m dest dest_end (dest + i) = 0 := by
  intro i hi
  exact clearLoop_get _ _ _ _ (by omega) i hi

/-- The linker-provided address symbols consumed by `startup` (word indices),
plus the address of the `irq_table` array placed in section `.vectable`. -/
structure LinkerMap where
  stextload : Nat
  stext : Nat
  etext : Nat
  sdataload : Nat
  sdata : Nat
  edata : Nat
  sbss : Nat
  ebss : Nat
  estack : Nat
  flexram_bank_config : Nat
  irq_table : Nat
deriving DecidableEq, Repr

/-- Machine state visible to the startup routine in this model: the word
memory (covering RAM, the `irq_table`, and the memory-mapped registers) and
the processor stack pointer. -/
structure MachineState where
  mem : Mem
  sp : Nat

/-- One primitive side effect of `startup`, in program order.  `mmioWrite`
carries the byte address of the register exactly as the source spells it;
`branchMain` carries the link bit of the transfer instruction (`true` for
`bl`, which records a return address in the link register, `false` for a
plain `b`). -/
inductive Event where
  | mmioWrite (byteAddr val : Nat)
  | fpuRMW (byteAddr mask : Nat)
  | isb
  | dsb
  | setStackPointer (val : Nat)
  | copyCall (dest src dest_end : Nat)
  | clearCall (dest dest_end : Nat)
  | tableWrite (index val : Nat)
  | branchMain (link : Bool)
deriving DecidableEq, Repr

/-- Does the event record a return address for the control transfer? -/
def recordsReturnAddress : Event → Bool
  | Event.branchMain link => link
  | _ => false

/-- Word index of the FlexRAM bank-configuration register written first,
byte address `0x400AC000 + 0x44`. -/
def gpr17Index : Nat := wordIndex (0x400AC000 + 0x44)

/-- Word index of the register at byte address `0x400AC000 + 0x40`. -/
def gpr16Index : Nat := wordIndex (0x400AC000 + 0x40)

/-- Word index of the register at byte address `0x400AC000 + 0x38`. -/
def gpr14Index : Nat := wordIndex (0x400AC000 + 0x38)

/-- Word index of the coprocessor access control register, byte address
`0xE000ED88` (FPU enable). -/
def cpacrIndex : Nat := wordIndex 0xE000ED88

/-- Word index of the vector-table-base register, byte address
`0xE000ED08`. -/
def vtorIndex : Nat := wordIndex 0xE000ED08

/-- The body of `startup()` from `src/teensy.c`, statement by statement,
returning the final machine state together with the trace of side effects
in execution order.  The two barriers are pure ordering fences with no
memory effect in this single-core model; the final transfer is
`__asm__ volatile("bl main")`, a branch with link. -/
def startup (L : LinkerMap) (s : MachineState) : MachineState × List Event :=
  -- FlexRAM Bank configuration
  let m1 := wstore s.mem gpr17Index L.flexram_bank_config
  let m2 := wstore m1 gpr16Index 0x00000007
  let m3 := wstore m2 gpr14Index 0x00AA0000
  -- Enable FPU: mmio32(0xE000ED88) = mmio32(0xE000ED88) | (0xFF<<20)
  let m4 := wstore m3 cpacrIndex (m3 cpacrIndex ||| (0xFF <<< 20))
  -- isb; dsb  (no memory effect)
  -- Move stack pointer: mov sp, &_estack
  let sp1 := L.estack
  -- Initialize the runtime image
  let m5 := memory_copy m4 L.stext L.stextload L.etext
  let m6 := memory_copy m5 L.sdata L.sdataload L.edata
  let m7 := memory_clear m6 L.sbss L.ebss
  -- irq_table[0] = (uint32_t)&_estack
  let m8 := wstore m7 L.irq_table L.estack
  -- mmio32(0xE000ED08) = (uint32_t)&irq_table
  let m9 := wstore m8 vtorIndex L.irq_table
  -- bl main
  (⟨m9, sp1⟩,
   [Event.mmioWrite (0x400AC000 + 0x44) L.flexram_bank_config,
    Event.mmioWrite (0x400AC000 + 0x40) 0x00000007,
    Event.mmioWrite (0x400AC000 + 0x38) 0x00AA0000,
    Event.fpuRMW 0xE000ED88 (0xFF <<< 20),
    Event.isb,
    Event.dsb,
    Event.setStackPointer L.estack,
    Event.copyCall L.stext L.stextload L.etext,
    Event.copyCall L.sdata L.sdataload L.edata,
    Event.clearCall L.sbss L.ebss,
    Event.tableWrite 0 L.estack,
    Event.mmioWrite 0xE000ED08 L.irq_table,
    Event.branchMain true])

/-- The addresses the boot tables embed as 32-bit values: the entrypoint,
`BootData`, and the `ImageVectorTable` itself, fixed by the link step. -/
structure BootImageAddrs where
  startupAddr : Nat
  bootDataAddr : Nat
  ivtAddr : Nat
deriving DecidableEq, Repr

/-- `BootData` from `src/teensy.c`: flash base, image length, reserved. -/
def BootData (flashimagelen : Nat) : List Nat :=
  [0x60000000, flashimagelen, 0]

/-- `ImageVectorTable` from `src/teensy.c`: header magic, entrypoint,
reserved, dcd, boot data address, self address, csf, reserved. -/
def ImageVectorTable (A : BootImageAddrs) : List Nat :=
  [0x402000D1,
   A.startupAddr,
   0,
   0,
   A.bootDataAddr,
   A.ivtAddr,
   0,
   0]

/-- `FlexSPI_NOR_Config` from `src/teensy.c`: the 512-byte flash
configuration block, transcribed word for word (byte offsets noted as in
the source). -/
def FlexSPI_NOR_Config : List Nat :=
  [0x42464346, -- Tag                          0x00
   0x56010000, -- Version
   0,
   0x00020101,
   0x00000000, --                              0x10
   0,
   0,
   0x00000000,
   0, -- configCmdSeqs                         0x20
   0,
   0,
   0,
   0, -- cfgCmdArgs                            0x30
   0,
   0,
   0,
   0x00000000, -- controllerMiscOption         0x40
   0x00030401,
   0,
   0,
   0x00200000, -- sflashA1Size                 0x50
   0,
   0,
   0,
   0, -- csPadSettingOverride                  0x60
   0,
   0,
   0,
   0, -- timeoutInMs                           0x70
   0,
   0,
   0x00000000,
   0x0A1804EB, -- lookupTable[0]               0x80
   0x26043206,
   0,
   0,
   0x24040405, -- lookupTable[4]               0x90
   0,
   0,
   0,
   0, -- lookupTable[8]                        0xA0
   0,
   0,
   0,
   0x00000406, -- lookupTable[12]              0xB0
   0,
   0,
   0,
   0, -- lookupTable[16]                       0xC0
   0,
   0,
   0,
   0x08180420, -- lookupTable[20]              0xD0
   0,
   0,
   0,
   0, -- lookupTable[24]                       0xE0
   0,
   0,
   0,
   0, -- lookupTable[28]                       0xF0
   0,
   0,
   0,
   0x081804D8, -- lookupTable[32]              0x100
   0,
   0,
   0,
   0x08180402, -- lookupTable[36]              0x110
   0x00002004,
   0,
   0,
   0, -- lookupTable[40]                       0x120
   0,
   0,
   0,
   0x00000460, -- lookupTable[44]              0x130
   0,
   0,
   0,
   0, -- lookupTable[48]                       0x140
   0,
   0,
   0,
   0, -- lookupTable[52]                       0x150
   0,
   0,
   0,
   0, -- lookupTable[56]                       0x160
   0,
   0,
   0,
   0, -- lookupTable[60]                       0x170
   0,
   0,
   0,
   0, -- LUT pointers                          0x180
   0,
   0,
   0,
   0, --                                       0x190
   0,
   0,
   0,
   0, --                                       0x1A0
   0,
   0,
   0,
   0, -- reserved                              0x1B0
   0,
   0,
   0,
   256, -- pageSize                            0x1C0
   4096, -- sectorSize
   1, -- ipCmdSerialClkFreq
   0,
   0x00010000, -- block size                   0x1D0
   0,
   0,
   0,
   0, -- reserved                              0x1E0
   0,
   0,
   0,
   0, -- reserved                              0x1F0
   0,
   0,
   0]

/-- A concrete linker layout used for witnesses and counterexamples:
text load `[0,2)`, text `[10,12)`, data load `[2,4)`, data `[20,22)`,
bss `[30,32)`, stack top `1000`, FlexRAM config word `77`,
`irq_table` at word index `40`. -/
def sampleMap : LinkerMap :=
  ⟨0, 10, 12, 2, 20, 22, 30, 32, 1000, 77, 40⟩

/-- A concrete pre-startup machine state: word `a` holds `a + 100`,
stack pointer `0`. -/
def sampleState : MachineState :=
  ⟨fun a => a + 100, 0⟩

/-- C4: `memory_copy` with `dest == src` leaves the entire memory state
unchanged — the `if (dest == src) return;` test detects the case and skips
the copy. -/
theorem memory_copy_self_noop (m : Mem) (dest dest_end : Nat) :
    memory_copy m dest dest dest_end = m := by
  simp [memory_copy]

/-- C5: for `dest ≤ dest_end`, after `memory_clear(dest, dest_end)` every
word in `[dest, dest_end)` is exactly zero. -/
theorem memory_clear_zeroes (m : Mem) (dest dest_end : Nat)
    (hle : dest ≤ dest_end) :
    ∀ i < dest_end - dest, memory_clear m dest dest_end (dest + i) = 0 := by
  intro i hi
  exact memory_clear_get m dest dest_end i (by omega)

/-- Witness for C5 at a concrete input. -/
theorem memory_clear_zeroes_witness :
    memory_clear (fun a => a + 7) 1 3 (1 + 1) = 0 :=
  memory_clear_zeroes (fun a => a + 7) 1 3 (by decide) 1 (by decide)

/-- C6: with `dest == dest_end`, both `memory_copy` (here with
`dest ≠ src`, so the copy is not skipped by the aliasing test) and
`memory_clear` terminate without writing a single word: the memory state is
unchanged. -/
theorem empty_range_noop (m : Mem) (dest src : Nat) (hne : dest ≠ src) :
    memory_copy m dest src dest = m ∧ memory_clear m dest dest = m := by
  constructor
  · unfold memory_copy
    rw [if_neg hne, Nat.sub_self]
    rfl
  · unfold memory_clear
    rw [Nat.sub_self]
    rfl

/-- Witness for C6 at a concrete input. -/
theorem empty_range_noop_witness :
    memory_copy (fun a => a) 5 9 5 = (fun a => a) ∧
    memory_clear (fun a => a) 5 5 = (fun a => a) :=
  empty_range_noop (fun a => a) 5 9 (by decide)

/-- C10: both primitives are total (they terminate on every input, the
loop guard being a strict comparison, so an inverted range runs zero
iterations), and no word outside `[dest, dest_end)` is ever written.  For
an inverted range (`dest_end < dest`) every word is outside the empty
range, so nothing at all is written. -/
theorem primitives_frame (m : Mem) (dest src dest_end a : Nat)
    (ha : a < dest ∨ dest_end ≤ a) :
    memory_copy m dest src dest_end a = m a ∧
    memory_clear m dest dest_end a = m a :=
  ⟨memory_copy_frame m dest src dest_end a ha,
   memory_clear_frame m dest dest_end a ha⟩

/-- Witness for C10 at a concrete input with an inverted range. -/
theorem primitives_frame_witness :
    memory_copy (fun a => a) 5 2 3 4 = 4 ∧
    memory_clear (fun a => a) 5 3 4 = 4 :=
  primitives_frame (fun a => a) 5 2 3 4 (by decide)

/-- C3 fails as stated: when the source run starts strictly below an
overlapping destination run, the forward word-by-word copy reads words it
has already overwritten.  Concretely, copying `[0, …)` onto `[1, 4)` over
the memory `a ↦ a` stores `0` at index `2`, while the word at `src + 1`
originally held `1`. -/
theorem memory_copy_overlap_counterexample :
    ¬ (∀ (m : Mem) (dst src dstEnd : Nat), dst ≠ src → dst ≤ dstEnd →
        ∀ i < dstEnd - dst,
          memory_copy m dst src dstEnd (dst + i) = m (src + i)) := by
  intro h
  have h1 := h (fun a => a) 1 0 3 (by decide) (by decide) 1 (by decide)
  exact absurd h1 (by decide)

/-- C3 amended: for `dst ≠ src` and `dst ≤ dstEnd`, provided additionally
that the destination does not start strictly inside the source run
(`dst ≤ src`, which covers every overlap the forward copy handles, or the
source run `[src, src + (dstEnd - dst))` ends at or before `dst`), every
word at offset `i` in `[dst, dstEnd)` equals the word `src + i` held before
the call. -/
theorem memory_copy_words_correct (m : Mem) (dst src dstEnd : Nat)
    (_hne : dst ≠ src) (hle : dst ≤ dstEnd)
    (hsafe : dst ≤ src ∨ src + (dstEnd - dst) ≤ dst) :
    ∀ i < dstEnd - dst,
      memory_copy m dst src dstEnd (dst + i) = m (src + i) := by
  intro i hi
  exact memory_copy_get m dst src dstEnd hsafe i (by omega)

/-- Witness for the amended C3 at a concrete input. -/
theorem memory_copy_words_correct_witness :
    memory_copy (fun a => a + 100) 10 0 13 (10 + 2) = (fun a => a + 100) (0 + 2) :=
  memory_copy_words_correct (fun a => a + 100) 10 0 13
    (by decide) (by decide) (by decide) 2 (by decide)

/-- C8: the `ImageVectorTable` is an 8-word record whose word 0 is the
magic header `0x402000D1`, word 1 the address of `startup`, word 4 the
address of `BootData`, and word 5 its own load address. -/
theorem image_vector_table_fields (A : BootImageAddrs) :
    (ImageVectorTable A).length = 8 ∧
    (ImageVectorTable A).getD 0 0 = 0x402000D1 ∧
    (ImageVectorTable A).getD 1 0 = A.startupAddr ∧
    (ImageVectorTable A).getD 4 0 = A.bootDataAddr ∧
    (ImageVectorTable A).getD 5 0 = A.ivtAddr :=
  ⟨rfl, rfl, rfl, rfl, rfl⟩

set_option maxRecDepth 4000 in
/-- C9: `FlexSPI_NOR_Config` is exactly 128 words (512 bytes); the word at
byte offset `0x00` is the tag `0x42464346`, the word at byte offset
`0x1C0` (pageSize) is `256`, and the word at byte offset `0x1C4`
(sectorSize) is `4096`. -/
theorem flash_config_layout :
    FlexSPI_NOR_Config.length = 128 ∧
    4 * FlexSPI_NOR_Config.length = 512 ∧
    FlexSPI_NOR_Config.getD (0x00 / 4) 0 = 0x42464346 ∧
    FlexSPI_NOR_Config.getD (0x1C0 / 4) 0 = 256 ∧
    FlexSPI_NOR_Config.getD (0x1C4 / 4) 0 = 4096 := by
  refine ⟨by decide, by decide, by decide, by decide, by decide⟩

/-- C2: the side effects of `startup` occur in exactly the claimed order:
the three FlexRAM register writes (`0x400AC044`, `0x400AC040`,
`0x400AC038`), the FPU read-modify-write of `0xE000ED88`, the instruction
and data synchronization barriers, the stack-pointer relocation to
`&_estack`, the two `memory_copy` calls then the `memory_clear` call, the
write of `&_estack` into `irq_table[0]`, the write of `irq_table` into the
vector-table-base register `0xE000ED08`, and finally the transfer to
`main`, each step completing before the next begins. -/
theorem startup_event_order (L : LinkerMap) (s : MachineState) :
    (startup L s).2 =
      [Event.mmioWrite 0x400AC044 L.flexram_bank_config,
       Event.mmioWrite 0x400AC040 0x00000007,
       Event.mmioWrite 0x400AC038 0x00AA0000,
       Event.fpuRMW 0xE000ED88 0x0FF00000,
       Event.isb,
       Event.dsb,
       Event.setStackPointer L.estack,
       Event.copyCall L.stext L.stextload L.etext,
       Event.copyCall L.sdata L.sdataload L.edata,
       Event.clearCall L.sbss L.ebss,
       Event.tableWrite 0 L.estack,
       Event.mmioWrite 0xE000ED08 L.irq_table,
       Event.branchMain true] := rfl

/-- C7 fails as stated: the transfer to `main` is
`__asm__ volatile("bl main")`, a branch **with link**, which records the
return address in the link register.  At the concrete sample input the
trace therefore contains a transfer event whose link bit is set. -/
theorem branch_records_link_counterexample :
    ¬ (∀ e ∈ (startup sampleMap sampleState).2,
        recordsReturnAddress e = false) := by
  decide

/-- C7 amended: the transfer to `main` is the final action of `startup` —
nothing follows it and the routine never returns — and it is a `bl`
(branch with link): it pushes nothing onto the stack, but does record the
return address in the link register. -/
theorem startup_final_transfer (L : LinkerMap) (s : MachineState) :
    (startup L s).2.getLast? = some (Event.branchMain true) := rfl

/-- The final memory of `startup`, spelled out as the composition of the
register stores, the two copies, the clear, and the two table stores. -/
theorem startup_mem_eq (L : LinkerMap) (s : MachineState) :
    (startup L s).1.mem =
      wstore (wstore (memory_clear (memory_copy (memory_copy
        (wstore (wstore (wstore (wstore s.mem gpr17Index L.flexram_bank_config)
            gpr16Index 0x00000007) gpr14Index 0x00AA0000) cpacrIndex
          (wstore (wstore (wstore s.mem gpr17Index L.flexram_bank_config)
            gpr16Index 0x00000007) gpr14Index 0x00AA0000 cpacrIndex
              ||| (0xFF <<< 20)))
        L.stext L.stextload L.etext) L.sdata L.sdataload L.edata)
        L.sbss L.ebss) L.irq_table L.estack) vtorIndex L.irq_table := rfl

/-- C1: on a memory pre-populated with a storage image whose load regions
are disjoint from everything written later (and from the configuration
registers touched first), running `startup` to completion leaves the
execution code region `[stext, etext)` and data region `[sdata, edata)`
word-for-word identical to their storage images, zeroes every word of
`[sbss, ebss)`, sets the stack pointer to `estack`, and stores the address
of `irq_table` in the vector-table-base register at byte address
`0xE000ED08`. -/
theorem startup_materializes_image (L : LinkerMap) (s : MachineState)
    (hT : L.stext ≤ L.stextload ∨
      L.stextload + (L.etext - L.stext) ≤ L.stext)
    (hD : L.sdata ≤ L.sdataload ∨
      L.sdataload + (L.edata - L.sdata) ≤ L.sdata)
    (hDLT : L.etext ≤ L.sdataload ∨
      L.sdataload + (L.edata - L.sdata) ≤ L.stext)
    (hDT : L.etext ≤ L.sdata ∨ L.edata ≤ L.stext)
    (hBT : L.etext ≤ L.sbss ∨ L.ebss ≤ L.stext)
    (hBD : L.edata ≤ L.sbss ∨ L.ebss ≤ L.sdata)
    (hIrqT : L.irq_table < L.stext ∨ L.etext ≤ L.irq_table)
    (hIrqD : L.irq_table < L.sdata ∨ L.edata ≤ L.irq_table)
    (hIrqB : L.irq_table < L.sbss ∨ L.ebss ≤ L.irq_table)
    (hVT : vtorIndex < L.stext ∨ L.etext ≤ vtorIndex)
    (hVD : vtorIndex < L.sdata ∨ L.edata ≤ vtorIndex)
    (hVB : vtorIndex < L.sbss ∨ L.ebss ≤ vtorIndex)
    (hRegT : ∀ i < L.etext - L.stext,
      L.stextload + i ≠ gpr17Index ∧ L.stextload + i ≠ gpr16Index ∧
      L.stextload + i ≠ gpr14Index ∧ L.stextload + i ≠ cpacrIndex)
    (hRegD : ∀ i < L.edata - L.sdata,
      L.sdataload + i ≠ gpr17Index ∧ L.sdataload + i ≠ gpr16Index ∧
      L.sdataload + i ≠ gpr14Index ∧ L.sdataload + i ≠ cpacrIndex) :
    (startup L s).1.sp = L.estack ∧
    (startup L s).1.mem vtorIndex = L.irq_table ∧
    (∀ i < L.etext - L.stext,
      (startup L s).1.mem (L.stext + i) = s.mem (L.stextload + i)) ∧
    (∀ i < L.edata - L.sdata,
      (startup L s).1.mem (L.sdata + i) = s.mem (L.sdataload + i)) ∧
    (∀ i < L.ebss - L.sbss, (startup L s).1.mem (L.sbss + i) = 0) := by
  refine ⟨rfl, ?_, ?_, ?_, ?_⟩
  · rw [startup_mem_eq]
    exact wstore_same _ _ _
  · intro i hi
    rw [startup_mem_eq]
    rw [wstore_other _ _ _ _ (show L.stext + i ≠ vtorIndex by omega)]
    rw [wstore_other _ _ _ _ (show L.stext + i ≠ L.irq_table by omega)]
    rw [memory_clear_frame _ _ _ _ (by omega)]
    rw [memory_copy_frame _ _ _ _ _ (by omega)]
    rw [memory_copy_get _ _ _ _ hT i (by omega)]
    rw [wstore_other _ _ _ _ (hRegT i hi).2.2.2]
    rw [wstore_other _ _ _ _ (hRegT i hi).2.2.1]
    rw [wstore_other _ _ _ _ (hRegT i hi).2.1]
    rw [wstore_other _ _ _ _ (hRegT i hi).1]
  · intro i hi
    rw [startup_mem_eq]
    rw [wstore_other _ _ _ _ (show L.sdata + i ≠ vtorIndex by omega)]
    rw [wstore_other _ _ _ _ (show L.sdata + i ≠ L.irq_table by omega)]
    rw [memory_clear_frame _ _ _ _ (by omega)]
    rw [memory_copy_get _ _ _ _ hD i (by omega)]
    rw [memory_copy_frame _ _ _ _ _ (by omega)]
    rw [wstore_other _ _ _ _ (hRegD i hi).2.2.2]
    rw [wstore_other _ _ _ _ (hRegD i hi).2.2.1]
    rw [wstore_other _ _ _ _ (hRegD i hi).2.1]
    rw [wstore_other _ _ _ _ (hRegD i hi).1]
  · intro i hi
    rw [startup_mem_eq]
    rw [wstore_other _ _ _ _ (show L.sbss + i ≠ vtorIndex by omega)]
    rw [wstore_other _ _ _ _ (show L.sbss + i ≠ L.irq_table by omega)]
    exact memory_clear_get _ _ _ i (by omega)

/-- Witness for C1 at the sample layout: the copied text word, the copied
data word, a zeroed bss word, the stack pointer, and the vector-table-base
register, all checked at concrete indices. -/
theorem startup_materializes_image_witness :
    (startup sampleMap sampleState).1.sp = 1000 ∧
    (startup sampleMap sampleState).1.mem vtorIndex = 40 ∧
    (startup sampleMap sampleState).1.mem (10 + 1) = sampleState.mem (0 + 1) ∧
    (startup sampleMap sampleState).1.mem (20 + 1) = sampleState.mem (2 + 1) ∧
    (startup sampleMap sampleState).1.mem (30 + 1) = 0 := by
  obtain ⟨h1, h2, h3, h4, h5⟩ :=
    startup_materializes_image sampleMap sampleState
      (by decide) (by decide) (by decide) (by decide) (by decide) (by decide)
      (by decide) (by decide) (by decide) (by decide) (by decide) (by decide)
      (by decide) (by decide)
  exact ⟨h1, h2, h3 1 (by decide), h4 1 (by decide), h5 1 (by decide)⟩
